import Mathlib

set_option maxRecDepth 1000000

/-!
Shallow embedding of the presence-debounced flush controller
(`src/main.py`) and verification of the specification's claims.

Python floats are modelled as exact rationals (`ℚ`); Python `int`
counters as `ℕ`.  The actuator is modelled by making `update` return
the (at most one) invocation timestamp it performs; the Python
`assert` in the `PRESENCE_DETECTED` branch is modelled by `update`
returning `none` when the assertion would fail.
-/

/-- States of the controller, mirroring `class State(Enum)`. -/
inductive State where
  | IDLE
  | PRESENCE_DETECTED
  | IN_USE
  | WAIT_TO_FLUSH
  | FLUSHING
  | COOLDOWN
deriving DecidableEq, Repr

/-- Timing parameters, mirroring `@dataclass class Config`. -/
structure Config where
  min_use_seconds : ℚ := 2
  flush_delay_seconds : ℚ := 1
  cooldown_seconds : ℚ := 8
deriving DecidableEq, Repr

/-- The dataclass-generated constructor of `Config`: plain field
assignment, exactly as Python's `@dataclass` produces it. -/
def Config.make (m f c : ℚ) : Config := ⟨m, f, c⟩

/-- Counters, mirroring `@dataclass class Metrics`. -/
structure Metrics where
  flush_count : ℕ := 0
  presence_events : ℕ := 0
deriving DecidableEq, Repr

/-- Mutable fields of `FlushController` (the config is passed to
`update` separately; the actuator is modelled by `update`'s output). -/
structure FlushController where
  state : State
  state_enter_s : ℚ
  presence_start_s : Option ℚ
  metrics : Metrics
deriving DecidableEq, Repr

/-- The fresh controller built by `FlushController.__init__`. -/
def FlushController.init : FlushController :=
  { state := .IDLE, state_enter_s := 0, presence_start_s := none, metrics := {} }

/-- Mirrors `FlushController._enter`. -/
def enter (c : FlushController) (new_state : State) (now_s : ℚ) : FlushController :=
  { c with state := new_state, state_enter_s := now_s }

/-- Mirrors `FlushController.update`.  Returns the new controller and
`some now_s` when the actuator was invoked (the `FLUSHING` branch),
`none` overall when the Python `assert` would fail. -/
def update (cfg : Config) (c : FlushController) (now_s : ℚ) (presence : Bool) :
    Option (FlushController × Option ℚ) :=
  match c.state with
  | .IDLE =>
      if presence then
        some (enter { c with
            metrics := { c.metrics with presence_events := c.metrics.presence_events + 1 },
            presence_start_s := some now_s } .PRESENCE_DETECTED now_s, none)
      else some (c, none)
  | .PRESENCE_DETECTED =>
      if !presence then
        some (enter { c with presence_start_s := none } .IDLE now_s, none)
      else
        match c.presence_start_s with
        | none => none
        | some ps =>
            if cfg.min_use_seconds ≤ now_s - ps then
              some (enter c .IN_USE now_s, none)
            else some (c, none)
  | .IN_USE =>
      if !presence then some (enter c .WAIT_TO_FLUSH now_s, none)
      else some (c, none)
  | .WAIT_TO_FLUSH =>
      if presence then some (enter c .IN_USE now_s, none)
      else
        if cfg.flush_delay_seconds ≤ now_s - c.state_enter_s then
          some (enter c .FLUSHING now_s, none)
        else some (c, none)
  | .FLUSHING =>
      some (enter { c with
          metrics := { c.metrics with flush_count := c.metrics.flush_count + 1 } }
        .COOLDOWN now_s, some now_s)
  | .COOLDOWN =>
      if cfg.cooldown_seconds ≤ now_s - c.state_enter_s then
        some (enter { c with presence_start_s := none } .IDLE now_s, none)
      else some (c, none)

/-- Runs a list of `(now_s, presence)` samples through `update`,
collecting actuator invocation timestamps in order. -/
def runUpdates (cfg : Config) (c : FlushController) :
    List (ℚ × Bool) → Option (FlushController × List ℚ)
  | [] => some (c, [])
  | (t, p) :: rest =>
      match update cfg c t p with
      | none => none
      | some (c1, em) =>
          match runUpdates cfg c1 rest with
          | none => none
          | some (c2, ems) => some (c2, em.toList ++ ems)

/-- Mirrors `ScriptedSensor.presence`: true when some interval
`(start, end)` has `start ≤ now < end`. -/
def ScriptedSensor.presence (intervals : List (ℚ × ℚ)) (now_s : ℚ) : Bool :=
  intervals.any fun se => decide (se.1 ≤ now_s) && decide (now_s < se.2)

/-- Mirrors the `while t <= duration_s` loop of `run_simulation`,
with explicit fuel (the loop terminates for positive `step_s`; fuel
exhaustion yields `none` and never occurs with sufficient fuel). -/
def simLoop (cfg : Config) (sensor : ℚ → Bool) (duration_s step_s : ℚ) :
    ℕ → ℚ → FlushController → Option (FlushController × List ℚ)
  | 0, _, _ => none
  | fuel + 1, t, c =>
      if t ≤ duration_s then
        match update cfg c t (sensor t) with
        | none => none
        | some (c1, em) =>
            match simLoop cfg sensor duration_s step_s fuel (t + step_s) c1 with
            | none => none
            | some (c2, ems) => some (c2, em.toList ++ ems)
      else some (c, [])

/-- The `__main__` scenario: config `(2, 1, 8)`, intervals
`[(1, 1.6), (5, 9), (12, 12.3)]`, duration `25`, step `0.1`. -/
def mainScenario : Option (FlushController × List ℚ) :=
  simLoop (Config.make 2 1 8)
    (ScriptedSensor.presence [(1, 8/5), (5, 9), (12, 123/10)])
    25 (1/10) 300 0 FlushController.init

/-! Branch characterizations of `update` -/

theorem update_idle_true (cfg : Config) (c : FlushController) (now : ℚ)
    (h : c.state = .IDLE) :
    update cfg c now true =
      some (enter { c with
          metrics := { c.metrics with presence_events := c.metrics.presence_events + 1 },
          presence_start_s := some now } .PRESENCE_DETECTED now, none) := by
  simp [update, h]

theorem update_idle_false (cfg : Config) (c : FlushController) (now : ℚ)
    (h : c.state = .IDLE) :
    update cfg c now false = some (c, none) := by
  simp [update, h]

theorem update_pd_false (cfg : Config) (c : FlushController) (now : ℚ)
    (h : c.state = .PRESENCE_DETECTED) :
    update cfg c now false =
      some (enter { c with presence_start_s := none } .IDLE now, none) := by
  simp [update, h]

theorem update_pd_true_none (cfg : Config) (c : FlushController) (now : ℚ)
    (h : c.state = .PRESENCE_DETECTED) (hps : c.presence_start_s = none) :
    update cfg c now true = none := by
  simp [update, h, hps]

theorem update_pd_true_promote (cfg : Config) (c : FlushController) (now ps : ℚ)
    (h : c.state = .PRESENCE_DETECTED) (hps : c.presence_start_s = some ps)
    (hd : cfg.min_use_seconds ≤ now - ps) :
    update cfg c now true = some (enter c .IN_USE now, none) := by
  simp [update, h, hps, hd]

theorem update_pd_true_stay (cfg : Config) (c : FlushController) (now ps : ℚ)
    (h : c.state = .PRESENCE_DETECTED) (hps : c.presence_start_s = some ps)
    (hd : now - ps < cfg.min_use_seconds) :
    update cfg c now true = some (c, none) := by
  simp [update, h, hps, not_le.mpr hd]

theorem update_inuse_true (cfg : Config) (c : FlushController) (now : ℚ)
    (h : c.state = .IN_USE) :
    update cfg c now true = some (c, none) := by
  simp [update, h]

theorem update_inuse_false (cfg : Config) (c : FlushController) (now : ℚ)
    (h : c.state = .IN_USE) :
    update cfg c now false = some (enter c .WAIT_TO_FLUSH now, none) := by
  simp [update, h]

theorem update_wtf_true (cfg : Config) (c : FlushController) (now : ℚ)
    (h : c.state = .WAIT_TO_FLUSH) :
    update cfg c now true = some (enter c .IN_USE now, none) := by
  simp [update, h]

theorem update_wtf_false_fire (cfg : Config) (c : FlushController) (now : ℚ)
    (h : c.state = .WAIT_TO_FLUSH)
    (hd : cfg.flush_delay_seconds ≤ now - c.state_enter_s) :
    update cfg c now false = some (enter c .FLUSHING now, none) := by
  simp [update, h, hd]

theorem update_wtf_false_stay (cfg : Config) (c : FlushController) (now : ℚ)
    (h : c.state = .WAIT_TO_FLUSH)
    (hd : now - c.state_enter_s < cfg.flush_delay_seconds) :
    update cfg c now false = some (c, none) := by
  simp [update, h, not_le.mpr hd]

theorem update_flushing (cfg : Config) (c : FlushController) (now : ℚ) (p : Bool)
    (h : c.state = .FLUSHING) :
    update cfg c now p =
      some (enter { c with
          metrics := { c.metrics with flush_count := c.metrics.flush_count + 1 } }
        .COOLDOWN now, some now) := by
  simp [update, h]

theorem update_cooldown_exit (cfg : Config) (c : FlushController) (now : ℚ) (p : Bool)
    (h : c.state = .COOLDOWN) (hd : cfg.cooldown_seconds ≤ now - c.state_enter_s) :
    update cfg c now p =
      some (enter { c with presence_start_s := none } .IDLE now, none) := by
  simp [update, h, hd]

theorem update_cooldown_stay (cfg : Config) (c : FlushController) (now : ℚ) (p : Bool)
    (h : c.state = .COOLDOWN) (hd : now - c.state_enter_s < cfg.cooldown_seconds) :
    update cfg c now p = some (c, none) := by
  simp [update, h, not_le.mpr hd]

/-! Claim C1 -/

/-- C1 counterexample: with config `(2, 1, 8)`, after the calls
`(0,true), (2,true), (3,false), (4,false)` the call at `t = 4`
transitions WAIT_TO_FLUSH into FLUSHING and returns: the state
observed between calls is FLUSHING, no actuator invocation has
happened (`[]`), and COOLDOWN was not entered — refuting the claim
that the transition call itself fires the actuator and advances to
COOLDOWN. -/
theorem claim1_counterexample :
    runUpdates (Config.make 2 1 8) FlushController.init
      [(0, true), (2, true), (3, false), (4, false)] =
    some ({ state := .FLUSHING, state_enter_s := 4, presence_start_s := some 0,
            metrics := { flush_count := 0, presence_events := 1 } }, []) := by
  with_unfolding_all decide

/-- C1 amended: FLUSHING persists for exactly one inter-call gap: the
call that leaves WAIT_TO_FLUSH only enters FLUSHING, and it is the
next `update` call that unconditionally invokes the actuator,
increments `flush_count` and advances to COOLDOWN, so FLUSHING never
rests across two consecutive gaps. -/
theorem claim1_amended (cfg : Config) (c : FlushController) (now : ℚ) (p : Bool)
    (h : c.state = .FLUSHING) :
    ∃ c', update cfg c now p = some (c', some now) ∧ c'.state = .COOLDOWN ∧
      c'.state_enter_s = now ∧ c'.presence_start_s = c.presence_start_s ∧
      c'.metrics.flush_count = c.metrics.flush_count + 1 ∧
      c'.metrics.presence_events = c.metrics.presence_events :=
  ⟨_, update_flushing cfg c now p h, rfl, rfl, rfl, rfl, rfl⟩

/-- C1 witness: the amended theorem applied at a concrete controller
resting in FLUSHING. -/
theorem claim1_witness :
    ∃ c', update (Config.make 2 1 8) ⟨.FLUSHING, 4, some 0, ⟨0, 1⟩⟩ 5 false =
        some (c', some 5) ∧ c'.state = .COOLDOWN ∧
      c'.state_enter_s = 5 ∧ c'.presence_start_s = some 0 ∧
      c'.metrics.flush_count = 0 + 1 ∧ c'.metrics.presence_events = 1 :=
  claim1_amended (Config.make 2 1 8) ⟨.FLUSHING, 4, some 0, ⟨0, 1⟩⟩ 5 false rfl

/-! Claim C2 -/

/-- C2 counterexample: the scripted scenario run ends with
`presence_events = 2`, not `3`: the third presence episode
`[12, 12.3)` falls inside COOLDOWN, whose branch ignores presence, so
no IDLE→PRESENCE_DETECTED transition records it. -/
theorem claim2_counterexample :
    (mainScenario.map fun r => r.1.metrics.presence_events) = some 2 := by
  with_unfolding_all decide

/-- C2 amended: the scenario yields zero triggers from the first
episode, exactly one trigger overall, fired at `now = 10.1` (FLUSHING
is entered at `10.0`, one flush-delay after presence ended at `9.0`,
and the actuator fires on the next sample), no trigger from the third
episode, and final metrics `flush_count = 1`, `presence_events = 2`;
the run ends IDLE, COOLDOWN having been left at `18.1`. -/
theorem claim2_amended :
    mainScenario =
      some ({ state := .IDLE, state_enter_s := 181/10, presence_start_s := none,
              metrics := { flush_count := 1, presence_events := 2 } },
            [101/10]) := by
  with_unfolding_all decide

/-! Claim C4 -/

/-- C4 counterexample: constructing a `Config` with all three
durations negative succeeds, and the resulting record carries the
negative values — refuting both rejection at construction and the
claimed invariant on constructed configurations. -/
theorem claim4_counterexample :
    (Config.make (-1) (-1) (-1)).min_use_seconds < 0 ∧
    (Config.make (-1) (-1) (-1)).flush_delay_seconds < 0 ∧
    (Config.make (-1) (-1) (-1)).cooldown_seconds < 0 := by
  decide

/-- C4 amended: `Config` construction performs no validation: for any
rational inputs, including negative durations, construction succeeds
and the fields are exactly the given values; the non-negativity
invariant is not enforced by the code. -/
theorem claim4_amended (m f c : ℚ) :
    Config.make m f c =
      { min_use_seconds := m, flush_delay_seconds := f, cooldown_seconds := c } :=
  rfl

/-! Claim C8 -/

/-- C8: in every successful `update` call, `flush_count` grows by one
exactly when the dispatch takes the FLUSHING branch and is unchanged
otherwise, the actuator is invoked exactly in that branch (exactly
once, at `now`), and neither counter ever decreases. -/
theorem claim8_flush_count_step (cfg : Config) (c : FlushController) (now : ℚ)
    (p : Bool) (c' : FlushController) (em : Option ℚ)
    (h : update cfg c now p = some (c', em)) :
    c'.metrics.flush_count =
        c.metrics.flush_count + (if c.state = .FLUSHING then 1 else 0) ∧
    em = (if c.state = .FLUSHING then some now else none) ∧
    c.metrics.presence_events ≤ c'.metrics.presence_events := by
  cases hs : c.state
  case IDLE =>
    cases p
    · rw [update_idle_false cfg c now hs] at h
      simp only [Option.some.injEq, Prod.mk.injEq] at h
      obtain ⟨rfl, rfl⟩ := h
      simp [hs]
    · rw [update_idle_true cfg c now hs] at h
      simp only [Option.some.injEq, Prod.mk.injEq] at h
      obtain ⟨rfl, rfl⟩ := h
      simp [enter, hs]
  case PRESENCE_DETECTED =>
    cases p
    · rw [update_pd_false cfg c now hs] at h
      simp only [Option.some.injEq, Prod.mk.injEq] at h
      obtain ⟨rfl, rfl⟩ := h
      simp [enter, hs]
    · cases hps : c.presence_start_s with
      | none => rw [update_pd_true_none cfg c now hs hps] at h; exact absurd h (by simp)
      | some ps =>
        rcases le_or_lt cfg.min_use_seconds (now - ps) with hd | hd
        · rw [update_pd_true_promote cfg c now ps hs hps hd] at h
          simp only [Option.some.injEq, Prod.mk.injEq] at h
          obtain ⟨rfl, rfl⟩ := h
          simp [enter, hs]
        · rw [update_pd_true_stay cfg c now ps hs hps hd] at h
          simp only [Option.some.injEq, Prod.mk.injEq] at h
          obtain ⟨rfl, rfl⟩ := h
          simp [hs]
  case IN_USE =>
    cases p
    · rw [update_inuse_false cfg c now hs] at h
      simp only [Option.some.injEq, Prod.mk.injEq] at h
      obtain ⟨rfl, rfl⟩ := h
      simp [enter, hs]
    · rw [update_inuse_true cfg c now hs] at h
      simp only [Option.some.injEq, Prod.mk.injEq] at h
      obtain ⟨rfl, rfl⟩ := h
      simp [hs]
  case WAIT_TO_FLUSH =>
    cases p
    · rcases le_or_lt cfg.flush_delay_seconds (now - c.state_enter_s) with hd | hd
      · rw [update_wtf_false_fire cfg c now hs hd] at h
        simp only [Option.some.injEq, Prod.mk.injEq] at h
        obtain ⟨rfl, rfl⟩ := h
        simp [enter, hs]
      · rw [update_wtf_false_stay cfg c now hs hd] at h
        simp only [Option.some.injEq, Prod.mk.injEq] at h
        obtain ⟨rfl, rfl⟩ := h
        simp [hs]
    · rw [update_wtf_true cfg c now hs] at h
      simp only [Option.some.injEq, Prod.mk.injEq] at h
      obtain ⟨rfl, rfl⟩ := h
      simp [enter, hs]
  case FLUSHING =>
    rw [update_flushing cfg c now p hs] at h
    simp only [Option.some.injEq, Prod.mk.injEq] at h
    obtain ⟨rfl, rfl⟩ := h
    simp [enter, hs]
  case COOLDOWN =>
    rcases le_or_lt cfg.cooldown_seconds (now - c.state_enter_s) with hd | hd
    · rw [update_cooldown_exit cfg c now p hs hd] at h
      simp only [Option.some.injEq, Prod.mk.injEq] at h
      obtain ⟨rfl, rfl⟩ := h
      simp [enter, hs]
    · rw [update_cooldown_stay cfg c now p hs hd] at h
      simp only [Option.some.injEq, Prod.mk.injEq] at h
      obtain ⟨rfl, rfl⟩ := h
      simp [hs]

/-- C8 witness: the step theorem applied at a concrete FLUSHING call. -/
theorem claim8_witness :
    (FlushController.mk .COOLDOWN 5 (some 0) ⟨1, 1⟩).metrics.flush_count =
        (FlushController.mk .FLUSHING 4 (some 0) ⟨0, 1⟩).metrics.flush_count +
          (if (FlushController.mk .FLUSHING 4 (some 0) ⟨0, 1⟩).state = .FLUSHING
            then 1 else 0) ∧
    (some 5 : Option ℚ) =
        (if (FlushController.mk .FLUSHING 4 (some 0) ⟨0, 1⟩).state = .FLUSHING
          then some (5 : ℚ) else none) ∧
    (FlushController.mk .FLUSHING 4 (some 0) ⟨0, 1⟩).metrics.presence_events ≤
        (FlushController.mk .COOLDOWN 5 (some 0) ⟨1, 1⟩).metrics.presence_events :=
  claim8_flush_count_step (Config.make 2 1 8) ⟨.FLUSHING, 4, some 0, ⟨0, 1⟩⟩ 5 false
    ⟨.COOLDOWN, 5, some 0, ⟨1, 1⟩⟩ (some 5) (by with_unfolding_all decide)

/-! Claim C9 -/

/-- C9: an `update` call made during COOLDOWN before the cooldown has
elapsed changes nothing — the controller record (state tag, both
timestamps, both metrics counters) is returned unchanged and the
actuator is not invoked — for either presence value; in particular a
presence onset during COOLDOWN increments nothing. -/
theorem claim9_cooldown_frame (cfg : Config) (c : FlushController) (now : ℚ)
    (p : Bool) (h1 : c.state = .COOLDOWN)
    (h2 : now - c.state_enter_s < cfg.cooldown_seconds) :
    update cfg c now p = some (c, none) :=
  update_cooldown_stay cfg c now p h1 h2

/-- C9 witness: the frame theorem applied at a concrete COOLDOWN
controller with presence true. -/
theorem claim9_witness :
    update (Config.make 2 1 8) ⟨.COOLDOWN, 10, some 5, ⟨1, 1⟩⟩ 12 true =
      some (⟨.COOLDOWN, 10, some 5, ⟨1, 1⟩⟩, none) :=
  claim9_cooldown_frame (Config.make 2 1 8) ⟨.COOLDOWN, 10, some 5, ⟨1, 1⟩⟩ 12 true
    rfl (by with_unfolding_all decide)

/-! The presence-start invariant (claims C3 and C10) -/

/-- The invariant that actually holds: `presence_start_s` is absent
exactly in IDLE. -/
def StartInv (c : FlushController) : Prop :=
  c.presence_start_s = none ↔ c.state = .IDLE

theorem startInv_init : StartInv FlushController.init := by
  simp [StartInv, FlushController.init]

theorem update_inv_step (cfg : Config) (c : FlushController) (now : ℚ) (p : Bool)
    (hinv : StartInv c) :
    ∃ c' em, update cfg c now p = some (c', em) ∧ StartInv c' := by
  cases hs : c.state
  case IDLE =>
    cases p
    · exact ⟨c, none, update_idle_false cfg c now hs, hinv⟩
    · exact ⟨_, none, update_idle_true cfg c now hs, by simp [StartInv, enter]⟩
  case PRESENCE_DETECTED =>
    cases p
    · exact ⟨_, none, update_pd_false cfg c now hs, by simp [StartInv, enter]⟩
    · have hne : c.presence_start_s ≠ none := by
        intro hn
        have h2 := hinv.mp hn
        rw [hs] at h2
        cases h2
      obtain ⟨ps, hps⟩ := Option.ne_none_iff_exists'.mp hne
      rcases le_or_lt cfg.min_use_seconds (now - ps) with hd | hd
      · refine ⟨_, none, update_pd_true_promote cfg c now ps hs hps hd, ?_⟩
        simp [StartInv, enter, hps]
      · exact ⟨c, none, update_pd_true_stay cfg c now ps hs hps hd, hinv⟩
  case IN_USE =>
    have hne : c.presence_start_s ≠ none := by
      intro hn
      have h2 := hinv.mp hn
      rw [hs] at h2
      cases h2
    cases p
    · refine ⟨_, none, update_inuse_false cfg c now hs, ?_⟩
      simp [StartInv, enter, hne]
    · exact ⟨c, none, update_inuse_true cfg c now hs, hinv⟩
  case WAIT_TO_FLUSH =>
    have hne : c.presence_start_s ≠ none := by
      intro hn
      have h2 := hinv.mp hn
      rw [hs] at h2
      cases h2
    cases p
    · rcases le_or_lt cfg.flush_delay_seconds (now - c.state_enter_s) with hd | hd
      · refine ⟨_, none, update_wtf_false_fire cfg c now hs hd, ?_⟩
        simp [StartInv, enter, hne]
      · exact ⟨c, none, update_wtf_false_stay cfg c now hs hd, hinv⟩
    · refine ⟨_, none, update_wtf_true cfg c now hs, ?_⟩
      simp [StartInv, enter, hne]
  case FLUSHING =>
    have hne : c.presence_start_s ≠ none := by
      intro hn
      have h2 := hinv.mp hn
      rw [hs] at h2
      cases h2
    refine ⟨_, some now, update_flushing cfg c now p hs, ?_⟩
    simp [StartInv, enter, hne]
  case COOLDOWN =>
    rcases le_or_lt cfg.cooldown_seconds (now - c.state_enter_s) with hd | hd
    · refine ⟨_, none, update_cooldown_exit cfg c now p hs hd, ?_⟩
      simp [StartInv, enter]
    · exact ⟨c, none, update_cooldown_stay cfg c now p hs hd, hinv⟩

theorem runUpdates_inv (cfg : Config) :
    ∀ (samples : List (ℚ × Bool)) (c : FlushController), StartInv c →
    ∃ c' ems, runUpdates cfg c samples = some (c', ems) ∧ StartInv c'
  | [], c, h => ⟨c, [], rfl, h⟩
  | (t, p) :: rest, c, h => by
      obtain ⟨c1, em, hu, h1⟩ := update_inv_step cfg c t p h
      obtain ⟨c2, ems, hr, h2⟩ := runUpdates_inv cfg rest c1 h1
      exact ⟨c2, em.toList ++ ems, by simp [runUpdates, hu, hr], h2⟩

/-! Claim C3 -/

/-- C3 counterexample: after `(0, true), (2, true)` (config
`(2, 1, 8)`) the controller rests in IN_USE while
`presence_start_s = some 0` is still present — refuting the claim
that the field is absent in every state other than
PRESENCE_DETECTED. -/
theorem claim3_counterexample :
    runUpdates (Config.make 2 1 8) FlushController.init [(0, true), (2, true)] =
      some ({ state := .IN_USE, state_enter_s := 2, presence_start_s := some 0,
              metrics := { flush_count := 0, presence_events := 1 } }, []) := by
  with_unfolding_all decide

/-- C3 amended: the standing invariant that holds over all reachable
states is: `presence_start_s` is absent exactly in IDLE — it is
present in PRESENCE_DETECTED, and remains present through IN_USE,
WAIT_TO_FLUSH, FLUSHING and COOLDOWN, being cleared only on the
transitions back to IDLE. -/
theorem claim3_amended (cfg : Config) (samples : List (ℚ × Bool))
    (c' : FlushController) (ems : List ℚ)
    (h : runUpdates cfg FlushController.init samples = some (c', ems)) :
    c'.presence_start_s = none ↔ c'.state = .IDLE := by
  obtain ⟨c'', ems', hr, hinv⟩ := runUpdates_inv cfg samples FlushController.init startInv_init
  rw [h] at hr
  simp only [Option.some.injEq, Prod.mk.injEq] at hr
  obtain ⟨rfl, rfl⟩ := hr
  exact hinv

/-- C3 witness: the amended invariant applied after the single call
`(0, true)`, which rests in PRESENCE_DETECTED with the onset
recorded. -/
theorem claim3_witness :
    ((FlushController.mk .PRESENCE_DETECTED 0 (some 0) ⟨0, 1⟩).presence_start_s = none ↔
      (FlushController.mk .PRESENCE_DETECTED 0 (some 0) ⟨0, 1⟩).state = .IDLE) :=
  claim3_amended (Config.make 2 1 8) [(0, true)]
    ⟨.PRESENCE_DETECTED, 0, some 0, ⟨0, 1⟩⟩ [] (by with_unfolding_all decide)

/-! Claim C10 -/

/-- C10: from a fresh controller, every sequence of `update` calls
succeeds: the internal assertion of the PRESENCE_DETECTED branch
(modelled as `update` returning `none`) never fires on any reachable
state, because `presence_start_s` is always present there. -/
theorem claim10_assert_never_fires (cfg : Config) (samples : List (ℚ × Bool)) :
    (runUpdates cfg FlushController.init samples).isSome = true := by
  obtain ⟨c', ems, hr, _⟩ := runUpdates_inv cfg samples FlushController.init startInv_init
  simp [hr]

/-! Claim C5 -/

/-- Lower bound on the time of the next possible actuator invocation,
given that all future call timestamps are at least `lb`: while in
COOLDOWN, no flush can happen before the cooldown from the COOLDOWN
entry (which is the previous flush time) has elapsed. -/
def nextFlushLB (cfg : Config) (c : FlushController) (lb : ℚ) : ℚ :=
  match c.state with
  | .COOLDOWN => max lb (c.state_enter_s + cfg.cooldown_seconds)
  | _ => lb

theorem update_spacing_step (cfg : Config) (c : FlushController) (now : ℚ) (p : Bool)
    (c1 : FlushController) (em : Option ℚ) (lb : ℚ)
    (hu : update cfg c now p = some (c1, em)) (hlb : lb ≤ now) :
    nextFlushLB cfg c lb ≤ nextFlushLB cfg c1 now ∧
    (em = none ∨ (em = some now ∧ nextFlushLB cfg c lb = lb ∧
      now + cfg.cooldown_seconds ≤ nextFlushLB cfg c1 now)) := by
  cases hs : c.state
  case IDLE =>
    cases p
    · rw [update_idle_false cfg c now hs] at hu
      simp only [Option.some.injEq, Prod.mk.injEq] at hu
      obtain ⟨rfl, rfl⟩ := hu
      exact ⟨by simp [nextFlushLB, hs, hlb], Or.inl rfl⟩
    · rw [update_idle_true cfg c now hs] at hu
      simp only [Option.some.injEq, Prod.mk.injEq] at hu
      obtain ⟨rfl, rfl⟩ := hu
      exact ⟨by simp [nextFlushLB, enter, hs, hlb], Or.inl rfl⟩
  case PRESENCE_DETECTED =>
    cases p
    · rw [update_pd_false cfg c now hs] at hu
      simp only [Option.some.injEq, Prod.mk.injEq] at hu
      obtain ⟨rfl, rfl⟩ := hu
      exact ⟨by simp [nextFlushLB, enter, hs, hlb], Or.inl rfl⟩
    · cases hps : c.presence_start_s with
      | none =>
        rw [update_pd_true_none cfg c now hs hps] at hu
        exact Option.noConfusion hu
      | some ps =>
        rcases le_or_lt cfg.min_use_seconds (now - ps) with hd | hd
        · rw [update_pd_true_promote cfg c now ps hs hps hd] at hu
          simp only [Option.some.injEq, Prod.mk.injEq] at hu
          obtain ⟨rfl, rfl⟩ := hu
          exact ⟨by simp [nextFlushLB, enter, hs, hlb], Or.inl rfl⟩
        · rw [update_pd_true_stay cfg c now ps hs hps hd] at hu
          simp only [Option.some.injEq, Prod.mk.injEq] at hu
          obtain ⟨rfl, rfl⟩ := hu
          exact ⟨by simp [nextFlushLB, hs, hlb], Or.inl rfl⟩
  case IN_USE =>
    cases p
    · rw [update_inuse_false cfg c now hs] at hu
      simp only [Option.some.injEq, Prod.mk.injEq] at hu
      obtain ⟨rfl, rfl⟩ := hu
      exact ⟨by simp [nextFlushLB, enter, hs, hlb], Or.inl rfl⟩
    · rw [update_inuse_true cfg c now hs] at hu
      simp only [Option.some.injEq, Prod.mk.injEq] at hu
      obtain ⟨rfl, rfl⟩ := hu
      exact ⟨by simp [nextFlushLB, hs, hlb], Or.inl rfl⟩
  case WAIT_TO_FLUSH =>
    cases p
    · rcases le_or_lt cfg.flush_delay_seconds (now - c.state_enter_s) with hd | hd
      · rw [update_wtf_false_fire cfg c now hs hd] at hu
        simp only [Option.some.injEq, Prod.mk.injEq] at hu
        obtain ⟨rfl, rfl⟩ := hu
        exact ⟨by simp [nextFlushLB, enter, hs, hlb], Or.inl rfl⟩
      · rw [update_wtf_false_stay cfg c now hs hd] at hu
        simp only [Option.some.injEq, Prod.mk.injEq] at hu
        obtain ⟨rfl, rfl⟩ := hu
        exact ⟨by simp [nextFlushLB, hs, hlb], Or.inl rfl⟩
    · rw [update_wtf_true cfg c now hs] at hu
      simp only [Option.some.injEq, Prod.mk.injEq] at hu
      obtain ⟨rfl, rfl⟩ := hu
      exact ⟨by simp [nextFlushLB, enter, hs, hlb], Or.inl rfl⟩
  case FLUSHING =>
    rw [update_flushing cfg c now p hs] at hu
    simp only [Option.some.injEq, Prod.mk.injEq] at hu
    obtain ⟨rfl, rfl⟩ := hu
    refine ⟨?_, Or.inr ⟨rfl, by simp [nextFlushLB, hs], ?_⟩⟩
    · have h1 : nextFlushLB cfg c lb = lb := by simp [nextFlushLB, hs]
      rw [h1]
      exact le_trans hlb (by simp [nextFlushLB, enter, le_max_left])
    · simp only [nextFlushLB, enter]
      exact le_max_right _ _
  case COOLDOWN =>
    rcases le_or_lt cfg.cooldown_seconds (now - c.state_enter_s) with hd | hd
    · rw [update_cooldown_exit cfg c now p hs hd] at hu
      simp only [Option.some.injEq, Prod.mk.injEq] at hu
      obtain ⟨rfl, rfl⟩ := hu
      refine ⟨?_, Or.inl rfl⟩
      have h1 : nextFlushLB cfg c lb = max lb (c.state_enter_s + cfg.cooldown_seconds) := by
        simp [nextFlushLB, hs]
      have h2 : nextFlushLB cfg (enter { c with presence_start_s := none } .IDLE now) now
          = now := by simp [nextFlushLB, enter]
      rw [h1, h2]
      exact max_le hlb (by linarith)
    · rw [update_cooldown_stay cfg c now p hs hd] at hu
      simp only [Option.some.injEq, Prod.mk.injEq] at hu
      obtain ⟨rfl, rfl⟩ := hu
      have h1 : nextFlushLB cfg c lb = max lb (c.state_enter_s + cfg.cooldown_seconds) := by
        simp [nextFlushLB, hs]
      have h2 : nextFlushLB cfg c now = max now (c.state_enter_s + cfg.cooldown_seconds) := by
        simp [nextFlushLB, hs]
      exact ⟨by rw [h1, h2]; exact max_le_max hlb le_rfl, Or.inl rfl⟩

theorem runUpdates_spaced (cfg : Config) :
    ∀ (samples : List (ℚ × Bool)) (c : FlushController) (lb : ℚ),
      List.Chain (· ≤ ·) lb (samples.map Prod.fst) →
      ∀ c'' ems, runUpdates cfg c samples = some (c'', ems) →
        List.Chain' (fun a b => a + cfg.cooldown_seconds ≤ b) ems ∧
        ∀ e ∈ ems, nextFlushLB cfg c lb ≤ e
  | [], c, lb, _, c'', ems, h => by
      simp only [runUpdates, Option.some.injEq, Prod.mk.injEq] at h
      obtain ⟨rfl, rfl⟩ := h
      simp
  | (t, p) :: rest, c, lb, hch, c'', ems, h => by
      rw [List.map_cons, List.chain_cons] at hch
      obtain ⟨hlb, hch'⟩ := hch
      cases hu : update cfg c t p with
      | none =>
          simp only [runUpdates, hu] at h
          exact Option.noConfusion h
      | some r =>
        obtain ⟨c1, em⟩ := r
        simp only [runUpdates, hu] at h
        cases hr : runUpdates cfg c1 rest with
        | none =>
            simp only [hr] at h
            exact Option.noConfusion h
        | some r2 =>
          obtain ⟨c2, ems2⟩ := r2
          simp only [hr, Option.some.injEq, Prod.mk.injEq] at h
          obtain ⟨rfl, rfl⟩ := h
          obtain ⟨ihsp, ihlb⟩ := runUpdates_spaced cfg rest c1 t hch' c2 ems2 hr
          obtain ⟨hmono, hem⟩ := update_spacing_step cfg c t p c1 em lb hu hlb
          rcases hem with rfl | ⟨rfl, hLBeq, hspace⟩
          · simp only [Option.toList_none, List.nil_append]
            exact ⟨ihsp, fun e he => le_trans hmono (ihlb e he)⟩
          · simp only [Option.toList_some, List.singleton_append]
            constructor
            · rw [List.chain'_cons']
              refine ⟨?_, ihsp⟩
              intro y hy
              exact le_trans hspace (ihlb y (List.mem_of_mem_head? hy))
            · intro e he
              rcases List.mem_cons.mp he with rfl | he2
              · rw [hLBeq]
                exact hlb
              · exact le_trans hmono (ihlb e he2)

/-- C5: rate limiting — over any monotone run from a fresh
controller, consecutive actuator invocation timestamps are at least
`cooldown_seconds` apart. -/
theorem claim5_rate_limit (cfg : Config) (samples : List (ℚ × Bool))
    (c'' : FlushController) (ems : List ℚ)
    (hmono : List.Chain' (· ≤ ·) (samples.map Prod.fst))
    (h : runUpdates cfg FlushController.init samples = some (c'', ems)) :
    List.Chain' (fun t1 t2 => t1 + cfg.cooldown_seconds ≤ t2) ems := by
  cases samples with
  | nil =>
      simp only [runUpdates, Option.some.injEq, Prod.mk.injEq] at h
      obtain ⟨rfl, rfl⟩ := h
      simp
  | cons s rest =>
      obtain ⟨t, p⟩ := s
      have hch : List.Chain (· ≤ ·) t (((t, p) :: rest).map Prod.fst) := by
        rw [List.map_cons, List.chain_cons]
        exact ⟨le_rfl, hmono⟩
      exact (runUpdates_spaced cfg ((t, p) :: rest) FlushController.init t hch c'' ems h).1

/-- C5 witness: a run with cooldown `1` producing two invocations, at
`0` and at `2`, spaced by at least the cooldown. -/
theorem claim5_witness :
    List.Chain' (fun t1 t2 => t1 + (Config.make 0 0 1).cooldown_seconds ≤ t2)
      [0, 2] :=
  claim5_rate_limit (Config.make 0 0 1)
    [(0, true), (0, true), (0, false), (0, false), (0, false), (1, false),
     (1, true), (1, true), (1, false), (1, false), (2, false)]
    ⟨.COOLDOWN, 2, some 1, ⟨2, 2⟩⟩ [0, 2]
    (by norm_num [List.chain'_cons, List.chain'_singleton])
    (by with_unfolding_all decide)

/-! Claim C7 -/

theorem pd_prefix_run (cfg : Config) (te : ℚ) :
    ∀ (ts : List ℚ) (n : ℕ) (c : FlushController) (s0 : ℚ),
      c.state = .PRESENCE_DETECTED → c.presence_start_s = some s0 →
      (∀ t ∈ ts, t - s0 < cfg.min_use_seconds) →
      ∀ c' ems,
        runUpdates cfg c ((ts.map (fun t => (t, true)) ++ [(te, false)]).take n)
          = some (c', ems) →
        (c'.state = .IDLE ∨ c'.state = .PRESENCE_DETECTED) ∧ ems = []
  | [], 0, c, s0, hs, _, _, c', ems, h => by
      simp only [List.map_nil, List.nil_append, List.take_zero, runUpdates,
        Option.some.injEq, Prod.mk.injEq] at h
      obtain ⟨rfl, rfl⟩ := h
      exact ⟨Or.inr hs, rfl⟩
  | [], n + 1, c, s0, hs, hps, _, c', ems, h => by
      simp only [List.map_nil, List.nil_append, List.take_succ_cons,
        List.take_nil] at h
      rw [runUpdates, update_pd_false cfg c te hs] at h
      simp only [runUpdates, Option.some.injEq, Prod.mk.injEq] at h
      obtain ⟨rfl, rfl⟩ := h
      exact ⟨Or.inl rfl, rfl⟩
  | t :: ts', 0, c, s0, hs, _, _, c', ems, h => by
      simp only [List.take_zero, runUpdates, Option.some.injEq, Prod.mk.injEq] at h
      obtain ⟨rfl, rfl⟩ := h
      exact ⟨Or.inr hs, rfl⟩
  | t :: ts', n + 1, c, s0, hs, hps, hshort, c', ems, h => by
      simp only [List.map_cons, List.cons_append, List.take_succ_cons] at h
      rw [runUpdates,
        update_pd_true_stay cfg c t s0 hs hps (hshort t (List.mem_cons_self t ts'))] at h
      cases hr : runUpdates cfg c ((ts'.map (fun x => (x, true)) ++ [(te, false)]).take n) with
      | none =>
          simp only [hr] at h
          exact Option.noConfusion h
      | some r =>
          obtain ⟨c2, ems2⟩ := r
          simp only [hr, Option.some.injEq, Prod.mk.injEq] at h
          obtain ⟨rfl, rfl⟩ := h
          have := pd_prefix_run cfg te ts' n c s0 hs hps
            (fun x hx => hshort x (List.mem_cons_of_mem t hx)) c2 ems2 hr
          exact ⟨this.1, by simp [this.2]⟩

/-- C7: starting from any IDLE controller, a presence episode all of
whose samples lie strictly within `min_use_seconds` of the onset,
closed by an absence sample, never passes through IN_USE (every
prefix of the episode leaves the controller in IDLE or
PRESENCE_DETECTED) and never invokes the actuator. -/
theorem claim7_short_episode (cfg : Config) (c : FlushController) (t0 te : ℚ)
    (ts : List ℚ) (hc : c.state = .IDLE)
    (hshort : ∀ t ∈ ts, t - t0 < cfg.min_use_seconds)
    (n : ℕ) (c' : FlushController) (ems : List ℚ)
    (h : runUpdates cfg c
          (((t0, true) :: (ts.map (fun t => (t, true)) ++ [(te, false)])).take n)
          = some (c', ems)) :
    (c'.state = .IDLE ∨ c'.state = .PRESENCE_DETECTED) ∧ ems = [] := by
  cases n with
  | zero =>
      simp only [List.take_zero, runUpdates, Option.some.injEq, Prod.mk.injEq] at h
      obtain ⟨rfl, rfl⟩ := h
      exact ⟨Or.inl hc, rfl⟩
  | succ m =>
      rw [List.take_succ_cons, runUpdates, update_idle_true cfg c t0 hc] at h
      cases hr : runUpdates cfg
          (enter { c with
              metrics := { c.metrics with
                presence_events := c.metrics.presence_events + 1 },
              presence_start_s := some t0 } .PRESENCE_DETECTED t0)
          ((ts.map (fun t => (t, true)) ++ [(te, false)]).take m) with
      | none =>
          simp only [hr] at h
          exact Option.noConfusion h
      | some r =>
          obtain ⟨c2, ems2⟩ := r
          simp only [hr, Option.some.injEq, Prod.mk.injEq] at h
          obtain ⟨rfl, rfl⟩ := h
          have := pd_prefix_run cfg te ts m _ t0 rfl rfl hshort c2 ems2 hr
          exact ⟨this.1, by simp [this.2]⟩

/-- C7 witness: the short-episode theorem applied to the full prefix
of the concrete episode `(1, true), (1.5, true), (1.6, false)` with
config `(2, 1, 8)`. -/
theorem claim7_witness :
    ((FlushController.mk .IDLE (8/5) none ⟨0, 1⟩).state = .IDLE ∨
      (FlushController.mk .IDLE (8/5) none ⟨0, 1⟩).state = .PRESENCE_DETECTED) ∧
    ([] : List ℚ) = [] :=
  claim7_short_episode (Config.make 2 1 8) FlushController.init 1 (8/5) [3/2]
    rfl (by with_unfolding_all decide) 3 ⟨.IDLE, 8/5, none, ⟨0, 1⟩⟩ []
    (by with_unfolding_all decide)

/-! Claim C6 -/

theorem runUpdates_cons_some (cfg : Config) (c : FlushController) (t : ℚ) (p : Bool)
    (rest : List (ℚ × Bool)) (c1 : FlushController) (em : Option ℚ)
    (c2 : FlushController) (ems : List ℚ)
    (hu : update cfg c t p = some (c1, em))
    (hr : runUpdates cfg c1 rest = some (c2, ems)) :
    runUpdates cfg c ((t, p) :: rest) = some (c2, em.toList ++ ems) := by
  simp only [runUpdates, hu, hr]

theorem in_use_true_run (cfg : Config) :
    ∀ (ts : List ℚ) (c : FlushController), c.state = .IN_USE →
      runUpdates cfg c (ts.map (fun t => (t, true))) = some (c, [])
  | [], _, _ => rfl
  | t :: ts', c, hs => by
      have hu := update_inuse_true cfg c t hs
      have hr := in_use_true_run cfg ts' c hs
      simp [runUpdates, hu, hr]

theorem idle_false_run (cfg : Config) :
    ∀ (ts : List ℚ) (c : FlushController), c.state = .IDLE →
      runUpdates cfg c (ts.map (fun t => (t, false))) = some (c, [])
  | [], _, _ => rfl
  | t :: ts', c, hs => by
      have hu := update_idle_false cfg c t hs
      have hr := idle_false_run cfg ts' c hs
      simp [runUpdates, hu, hr]

theorem cooldown_false_run (cfg : Config) :
    ∀ (ts : List ℚ) (c : FlushController), c.state = .COOLDOWN →
      ∃ c', runUpdates cfg c (ts.map (fun t => (t, false))) = some (c', [])
  | [], c, _ => ⟨c, rfl⟩
  | t :: ts', c, hs => by
      rcases le_or_lt cfg.cooldown_seconds (t - c.state_enter_s) with hd | hd
      · have hu := update_cooldown_exit cfg c t false hs hd
        have hid := idle_false_run cfg ts'
          (enter { c with presence_start_s := none } .IDLE t) rfl
        exact ⟨enter { c with presence_start_s := none } .IDLE t,
          by simp [runUpdates, hu, hid]⟩
      · have hu := update_cooldown_stay cfg c t false hs hd
        obtain ⟨c', hr⟩ := cooldown_false_run cfg ts' c hs
        exact ⟨c', by simp [runUpdates, hu, hr]⟩

theorem flushing_false_run (cfg : Config) (u : ℚ) (ts : List ℚ)
    (c : FlushController) (h : c.state = .FLUSHING) :
    ∃ c', runUpdates cfg c ((u :: ts).map (fun t => (t, false))) = some (c', [u]) := by
  have hfl := update_flushing cfg c u false h
  obtain ⟨c2, hc2⟩ := cooldown_false_run cfg ts
    (enter { c with
        metrics := { c.metrics with flush_count := c.metrics.flush_count + 1 } }
      .COOLDOWN u) rfl
  exact ⟨c2, by simp [runUpdates, hfl, hc2]⟩

theorem wtf_false_run (cfg : Config) :
    ∀ (ts : List ℚ) (c : FlushController),
      c.state = .WAIT_TO_FLUSH →
      List.Chain' (· ≤ ·) ts →
      (∃ x ∈ ts.dropLast, cfg.flush_delay_seconds ≤ x - c.state_enter_s) →
      ∃ c' tf, runUpdates cfg c (ts.map (fun t => (t, false))) = some (c', [tf]) ∧
        c.state_enter_s + cfg.flush_delay_seconds ≤ tf
  | [], _, _, _, hx => by
      obtain ⟨x, hxm, _⟩ := hx
      simp at hxm
  | t :: ts', c, hs, hch, hx => by
      rcases le_or_lt cfg.flush_delay_seconds (t - c.state_enter_s) with hd | hd
      · cases ts' with
        | nil =>
            obtain ⟨x, hxm, _⟩ := hx
            simp at hxm
        | cons u ts'' =>
            have hu := update_wtf_false_fire cfg c t hs hd
            obtain ⟨c2, hc2⟩ := flushing_false_run cfg u ts'' (enter c .FLUSHING t) rfl
            have hcomp := runUpdates_cons_some cfg c t false
              ((u :: ts'').map (fun x => (x, false))) (enter c .FLUSHING t) none
              c2 [u] hu hc2
            refine ⟨c2, u, by simpa using hcomp, ?_⟩
            have h2 : t ≤ u := (List.chain'_cons.mp hch).1
            linarith
      · cases ts' with
        | nil =>
            obtain ⟨x, hxm, _⟩ := hx
            simp at hxm
        | cons u ts'' =>
            have hu := update_wtf_false_stay cfg c t hs hd
            obtain ⟨x, hxm, hxd⟩ := hx
            have hxm' : x ∈ (u :: ts'').dropLast := by
              have hdl : (t :: u :: ts'').dropLast = t :: (u :: ts'').dropLast := by
                simp [List.dropLast]
              rw [hdl] at hxm
              rcases List.mem_cons.mp hxm with rfl | h2
              · exact absurd hxd (not_le.mpr hd)
              · exact h2
            obtain ⟨c', tf, hrun, hbound⟩ :=
              wtf_false_run cfg (u :: ts'') c hs hch.tail ⟨x, hxm', hxd⟩
            have hcomp := runUpdates_cons_some cfg c t false
              ((u :: ts'').map (fun x => (x, false))) c none c' [tf] hu hrun
            exact ⟨c', tf, by simpa using hcomp, hbound⟩

theorem runUpdates_append_some (cfg : Config) :
    ∀ (l1 : List (ℚ × Bool)) {l2 : List (ℚ × Bool)} {c c1 c2 : FlushController}
      {e1 e2 : List ℚ},
      runUpdates cfg c l1 = some (c1, e1) → runUpdates cfg c1 l2 = some (c2, e2) →
      runUpdates cfg c (l1 ++ l2) = some (c2, e1 ++ e2)
  | [], l2, c, c1, c2, e1, e2, h1, h2 => by
      simp only [runUpdates, Option.some.injEq, Prod.mk.injEq] at h1
      obtain ⟨rfl, rfl⟩ := h1
      simpa using h2
  | (t, p) :: l1', l2, c, c1, c2, e1, e2, h1, h2 => by
      cases hu : update cfg c t p with
      | none =>
          simp only [runUpdates, hu] at h1
          exact Option.noConfusion h1
      | some r =>
          obtain ⟨ca, em⟩ := r
          simp only [runUpdates, hu] at h1
          cases hr : runUpdates cfg ca l1' with
          | none =>
              simp only [hr] at h1
              exact Option.noConfusion h1
          | some r2 =>
              obtain ⟨cb, eb⟩ := r2
              simp only [hr, Option.some.injEq, Prod.mk.injEq] at h1
              obtain ⟨rfl, rfl⟩ := h1
              have hrec := runUpdates_append_some cfg l1' hr h2
              have hcomp := runUpdates_cons_some cfg c t p (l1' ++ l2) ca em c2
                (eb ++ e2) hu hrec
              rw [List.cons_append, hcomp, List.append_assoc]

theorem pd_pres_run (cfg : Config) :
    ∀ (ts : List ℚ) (c : FlushController) (s0 : ℚ),
      c.state = .PRESENCE_DETECTED → c.presence_start_s = some s0 →
      ∃ c', runUpdates cfg c (ts.map (fun t => (t, true))) = some (c', []) ∧
        (∀ t ∈ ts, cfg.min_use_seconds ≤ t - s0 → c'.state = .IN_USE)
  | [], c, s0, hs, _ => ⟨c, rfl, by simp⟩
  | t :: ts', c, s0, hs, hps => by
      rcases le_or_lt cfg.min_use_seconds (t - s0) with hd | hd
      · have hu := update_pd_true_promote cfg c t s0 hs hps hd
        have hrun := in_use_true_run cfg ts' (enter c .IN_USE t) rfl
        exact ⟨enter c .IN_USE t, by simp [runUpdates, hu, hrun], fun _ _ _ => rfl⟩
      · have hu := update_pd_true_stay cfg c t s0 hs hps hd
        obtain ⟨c', hrun, hthr⟩ := pd_pres_run cfg ts' c s0 hs hps
        refine ⟨c', by simp [runUpdates, hu, hrun], ?_⟩
        intro x hx hxthr
        rcases List.mem_cons.mp hx with rfl | hx2
        · exact absurd hxthr (not_le.mpr hd)
        · exact hthr x hx2 hxthr

/-- C6 counterexample: with `min_use_seconds = 0` and
`flush_delay_seconds = 0`, the single-sample presence interval
`(0, true)` has sampled duration `0 ≥ min_use_seconds` and is followed
by continuous absence extending well past the flush delay, yet the run
produces no actuator invocation at all (the IDLE→PRESENCE_DETECTED
call cannot itself confirm use, so a one-sample episode is always
dropped as noise) — refuting "exactly one actuator invocation". -/
theorem claim6_counterexample :
    runUpdates (Config.make 0 0 8) FlushController.init
      [(0, true), (1, false), (2, false), (3, false)] =
      some ({ state := .IDLE, state_enter_s := 1, presence_start_s := none,
              metrics := { flush_count := 0, presence_events := 1 } }, []) := by
  with_unfolding_all decide

/-- C6 amended: if the presence episode contains at least two samples
(automatic whenever `min_use_seconds > 0`, but required when it is
`0`), its sampled duration reaches `min_use_seconds`, and absence then
persists at least one sample beyond the first absence sample at which
`flush_delay_seconds` have elapsed, then exactly one actuator
invocation occurs, at a time at least `flush_delay_seconds` after the
first absence sample (all comparisons inclusive `≥`). -/
theorem claim6_amended (cfg : Config) (p0 : ℚ) (prest : List ℚ) (a0 : ℚ)
    (arest : List ℚ) (c : FlushController) (hc : c.state = .IDLE)
    (hchain : List.Chain' (· ≤ ·) ((p0 :: prest) ++ (a0 :: arest)))
    (hne : prest ≠ [])
    (hdur : cfg.min_use_seconds ≤ prest.getLast hne - p0)
    (habs : ∃ x ∈ arest.dropLast, cfg.flush_delay_seconds ≤ x - a0)
    (c' : FlushController) (ems : List ℚ)
    (h : runUpdates cfg c
        ((p0 :: prest).map (fun t => (t, true)) ++
          (a0 :: arest).map (fun t => (t, false))) = some (c', ems)) :
    ∃ tf, ems = [tf] ∧ a0 + cfg.flush_delay_seconds ≤ tf := by
  have hu0 := update_idle_true cfg c p0 hc
  obtain ⟨cP, hrunP, hthr⟩ := pd_pres_run cfg prest
    (enter { c with
        metrics := { c.metrics with
          presence_events := c.metrics.presence_events + 1 },
        presence_start_s := some p0 } .PRESENCE_DETECTED p0) p0 rfl rfl
  have hPin : cP.state = .IN_USE := hthr (prest.getLast hne) (List.getLast_mem hne) hdur
  have hrunPres : runUpdates cfg c ((p0 :: prest).map (fun t => (t, true)))
      = some (cP, []) := by
    simp [runUpdates, hu0, hrunP]
  have hu1 := update_inuse_false cfg cP a0 hPin
  have hchA : List.Chain' (· ≤ ·) arest := ((List.chain'_append.mp hchain).2.1).tail
  obtain ⟨cF, tf, hrunW, hbound⟩ :=
    wtf_false_run cfg arest (enter cP .WAIT_TO_FLUSH a0) rfl hchA habs
  have hrunAbs : runUpdates cfg cP ((a0 :: arest).map (fun t => (t, false)))
      = some (cF, [tf]) := by
    simp [runUpdates, hu1, hrunW]
  have hall := runUpdates_append_some cfg ((p0 :: prest).map (fun t => (t, true)))
    hrunPres hrunAbs
  rw [hall] at h
  simp only [List.nil_append, Option.some.injEq, Prod.mk.injEq] at h
  obtain ⟨rfl, rfl⟩ := h
  exact ⟨tf, rfl, hbound⟩

/-- C6 witness: config `(2, 1, 8)`, presence at `0, 2` (duration 2
reaches the threshold), absence at `3, 4, 5`: the single invocation
happens at `5 ≥ 3 + 1`. -/
theorem claim6_witness :
    ∃ tf, ([5] : List ℚ) = [tf] ∧
      (3 : ℚ) + (Config.make 2 1 8).flush_delay_seconds ≤ tf :=
  claim6_amended (Config.make 2 1 8) 0 [2] 3 [4, 5] FlushController.init rfl
    (by norm_num [List.chain'_cons, List.chain'_singleton])
    (by simp)
    (by with_unfolding_all decide)
    ⟨4, by simp, by with_unfolding_all decide⟩
    ⟨.COOLDOWN, 5, some 0, ⟨1, 1⟩⟩ [5]
    (by with_unfolding_all decide)
